import Mathlib

/-!
Verification of the COVID-19 analytics star-schema pipeline
(scripts/analytics.py, class PowerBIDataPreparation, and
scripts/data_processing.py, class CovidDataProcessor), shallowly
embedded in Lean.  Numeric dataframe cells are modelled as exact
rationals, optionally wrapped in a small IEEE-style value type with
NaN and signed infinities where the pandas semantics of missing
values and division by zero matters.  Dates are modelled as
year/month/day triples with proleptic Gregorian calendar arithmetic.
-/

set_option maxRecDepth 4096
set_option maxHeartbeats 1600000

namespace CovidSpec

/-- Shallow embedding of pandas cut with include_lowest set and the
default right-closed intervals.  Given ascending edges e0, e1, ..., ek
and labels l1, ..., lk, a value v is mapped to l1 when e0 le v le e1,
to li when e(i-1) lt v le ei, and to none (a missing category) when v
lies below e0 or above ek.  The helper walks the upper edges in order
and returns the first label whose upper edge is at least v. -/
def cutGo {α L : Type} [LinearOrder α] (v : α) : List α → List L → Option L
  | e :: es, l :: ls => if v ≤ e then some l else cutGo v es ls
  | _, _ => none

/-- pandas cut, include_lowest variant: reject values below the first
edge, then scan the remaining upper edges. -/
def cut {α L : Type} [LinearOrder α] (v : α) (edges : List α) (labels : List L) : Option L :=
  match edges with
  | [] => none
  | e0 :: rest => if v < e0 then none else cutGo v rest labels

/-- Income group binning from create_geography_dimension
(analytics.py): bins 0, 1045, 4095, 12695, inf. -/
def incomeGroup (v : ℚ) : Option String :=
  cut (v : WithTop ℚ) [((0 : ℚ) : WithTop ℚ), ((1045 : ℚ) : WithTop ℚ),
      ((4095 : ℚ) : WithTop ℚ), ((12695 : ℚ) : WithTop ℚ), ⊤]
    ["Low Income", "Lower Middle Income", "Upper Middle Income", "High Income"]

/-- Population size binning from create_geography_dimension
(analytics.py): bins 0, 1e6, 10e6, 50e6, 100e6, inf. -/
def populationCategory (v : ℚ) : Option String :=
  cut (v : WithTop ℚ) [((0 : ℚ) : WithTop ℚ), ((1000000 : ℚ) : WithTop ℚ),
      ((10000000 : ℚ) : WithTop ℚ), ((50000000 : ℚ) : WithTop ℚ),
      ((100000000 : ℚ) : WithTop ℚ), ⊤]
    ["<1M", "1M-10M", "10M-50M", "50M-100M", ">100M"]

/-- Development level binning from create_geography_dimension
(analytics.py): bins 0, 0.550, 0.700, 0.800, 1.0 over the human
development index. -/
def developmentLevel (v : ℚ) : Option String :=
  cut (v : WithTop ℚ) [((0 : ℚ) : WithTop ℚ), ((mkRat 550 1000 : ℚ) : WithTop ℚ),
      ((mkRat 700 1000 : ℚ) : WithTop ℚ), ((mkRat 800 1000 : ℚ) : WithTop ℚ),
      ((1 : ℚ) : WithTop ℚ)]
    ["Low", "Medium", "High", "Very High"]

/-- Vaccination status binning from create_main_fact_table
(analytics.py): bins 0, 25, 50, 75, 100 over
people_fully_vaccinated_per_hundred. -/
def vaccinationStatus (v : ℚ) : Option String :=
  cut (v : WithTop ℚ) [((0 : ℚ) : WithTop ℚ), ((25 : ℚ) : WithTop ℚ),
      ((50 : ℚ) : WithTop ℚ), ((75 : ℚ) : WithTop ℚ), ((100 : ℚ) : WithTop ℚ)]
    ["Low (<25%)", "Medium (25-50%)", "High (50-75%)", "Very High (>75%)"]

/-- Testing intensity binning from create_testing_fact_table
(analytics.py): bins 0, 100, 500, 1000, inf over
total_tests_per_thousand. -/
def testingIntensity (v : ℚ) : Option String :=
  cut (v : WithTop ℚ) [((0 : ℚ) : WithTop ℚ), ((100 : ℚ) : WithTop ℚ),
      ((500 : ℚ) : WithTop ℚ), ((1000 : ℚ) : WithTop ℚ), ⊤]
    ["Low (<100)", "Medium (100-500)", "High (500-1000)", "Very High (>1000)"]

/-- Positivity category binning from create_testing_fact_table
(analytics.py): bins 0, 5, 10, 20, inf over positive_rate. -/
def positivityCategory (v : ℚ) : Option String :=
  cut (v : WithTop ℚ) [((0 : ℚ) : WithTop ℚ), ((5 : ℚ) : WithTop ℚ),
      ((10 : ℚ) : WithTop ℚ), ((20 : ℚ) : WithTop ℚ), ⊤]
    ["Low (<5%)", "Medium (5-10%)", "High (10-20%)", "Very High (>20%)"]

/-- Stringency level binning from create_policy_fact_table
(analytics.py): bins 0, 25, 50, 75, 100 over stringency_index. -/
def stringencyLevel (v : ℚ) : Option String :=
  cut (v : WithTop ℚ) [((0 : ℚ) : WithTop ℚ), ((25 : ℚ) : WithTop ℚ),
      ((50 : ℚ) : WithTop ℚ), ((75 : ℚ) : WithTop ℚ), ((100 : ℚ) : WithTop ℚ)]
    ["Low (0-25)", "Medium (25-50)", "High (50-75)", "Very High (75-100)"]

/-- Transmission level binning from create_policy_fact_table
(analytics.py): bins 0, 0.8, 1.0, 1.5, inf over reproduction_rate. -/
def transmissionLevel (v : ℚ) : Option String :=
  cut (v : WithTop ℚ) [((0 : ℚ) : WithTop ℚ), ((mkRat 8 10 : ℚ) : WithTop ℚ),
      ((1 : ℚ) : WithTop ℚ), ((mkRat 15 10 : ℚ) : WithTop ℚ), ⊤]
    ["Declining (<0.8)", "Controlled (0.8-1.0)", "Growing (1.0-1.5)", "Rapid Growth (>1.5)"]

/-- IEEE-style scalar cell value as held in a numeric dataframe
column: a rational number, NaN (which doubles as the pandas missing
value), or a signed infinity. -/
inductive FVal : Type
  | num (q : ℚ)
  | nan
  | inf
  | ninf
deriving DecidableEq, Repr

/-- Floating point division as numpy performs it on series: NaN
propagates, a nonzero value over zero yields a signed infinity, and
zero over zero yields NaN. -/
def FVal.div : FVal → FVal → FVal
  | num a, num b =>
      if b = 0 then (if 0 < a then inf else if a < 0 then ninf else nan) else num (a / b)
  | nan, _ => nan
  | _, nan => nan
  | inf, inf => nan
  | inf, ninf => nan
  | ninf, inf => nan
  | ninf, ninf => nan
  | inf, num b => if 0 ≤ b then inf else ninf
  | ninf, num b => if 0 ≤ b then ninf else inf
  | num _, inf => num 0
  | num _, ninf => num 0

/-- Multiplication by the constant 100, as used to express ratios in
percent; infinities and NaN are preserved. -/
def FVal.mul100 : FVal → FVal
  | num a => num (a * 100)
  | nan => nan
  | inf => inf
  | ninf => ninf

/-- pandas fillna(0): replace NaN by zero; infinities are untouched. -/
def FVal.fillna0 : FVal → FVal
  | nan => num 0
  | x => x

/-- pandas clip(lo, hi): numbers are clamped into the closed range,
NaN passes through, and infinities collapse to the bounds. -/
def FVal.clip (lo hi : ℚ) : FVal → FVal
  | num a => num (max lo (min a hi))
  | nan => nan
  | inf => num hi
  | ninf => num lo

/-- pandas clip(lower=lo): one-sided clamp; NaN passes through and
positive infinity is untouched. -/
def FVal.clipLower (lo : ℚ) : FVal → FVal
  | num a => num (max lo a)
  | nan => nan
  | inf => inf
  | ninf => num lo

/-- Floating point subtraction: NaN propagates and opposite
infinities cancel to NaN. -/
def FVal.sub : FVal → FVal → FVal
  | num a, num b => num (a - b)
  | nan, _ => nan
  | _, nan => nan
  | inf, inf => nan
  | inf, _ => inf
  | ninf, ninf => nan
  | ninf, _ => ninf
  | num _, inf => ninf
  | num _, ninf => inf

/-- Case fatality rate from create_derived_metrics
(data_processing.py): (total_deaths / total_cases * 100).fillna(0). -/
def case_fatality_rate (totalDeaths totalCases : FVal) : FVal :=
  FVal.fillna0 (FVal.mul100 (FVal.div totalDeaths totalCases))

/-- Case growth rate from create_derived_metrics
(data_processing.py): (new_cases / total_cases * 100).fillna(0). -/
def case_growth_rate (newCases totalCases : FVal) : FVal :=
  FVal.fillna0 (FVal.mul100 (FVal.div newCases totalCases))

/-- Testing positivity rate from create_derived_metrics
(data_processing.py): (new_cases / new_tests * 100).clip(0, 100). -/
def positive_rate (newCases newTests : FVal) : FVal :=
  FVal.clip 0 100 (FVal.mul100 (FVal.div newCases newTests))

/-- Partially vaccinated people from create_vaccination_fact_table
(analytics.py): (people_vaccinated -
people_fully_vaccinated).clip(lower=0). -/
def people_partially_vaccinated (peopleVaccinated peopleFullyVaccinated : FVal) : FVal :=
  FVal.clipLower 0 (FVal.sub peopleVaccinated peopleFullyVaccinated)

/-- One observation row of the processed panel, restricted to what
the rolling computation reads: the location name and the daily new
case count. -/
structure ObsRow where
  location : String
  newCases : ℚ

/-- The per-location new_cases series in stored (date-sorted) order,
as groupby location extracts it in calculate_rolling_metrics. -/
def newCasesSeries (rows : List ObsRow) (loc : String) : List ℚ :=
  (rows.filter (fun r => r.location == loc)).map (fun r => r.newCases)

/-- Arithmetic mean of a list of rationals. -/
def listMean (l : List ℚ) : ℚ := l.sum / (l.length : ℚ)

/-- Rolling mean with window w and min_periods 1, as
rolling(window=w, min_periods=1).mean() computes it: entry i is the
mean of the trailing window ending at i, truncated at the start of
the series. -/
def rollingMean (w : Nat) (xs : List ℚ) : List ℚ :=
  (List.range xs.length).map (fun i => listMean ((xs.take (i + 1)).drop (i + 1 - w)))

/-- Rolling sum with window w and min_periods 1, the companion column
built next to the rolling mean in calculate_rolling_metrics. -/
def rollingSum (w : Nat) (xs : List ℚ) : List ℚ :=
  (List.range xs.length).map (fun i => ((xs.take (i + 1)).drop (i + 1 - w)).sum)

/-- The new_cases rolling average column of calculate_rolling_metrics
(data_processing.py) for one location group. -/
def calcRollingMean (rows : List ObsRow) (w : Nat) (loc : String) : List ℚ :=
  rollingMean w (newCasesSeries rows loc)

/-- The three-way case_trend label computed by the nested np.where on
the 7-day and 14-day rolling averages in calculate_rolling_metrics. -/
def trendLabel (r7 r14 : ℚ) : String :=
  if r7 > r14 then "Increasing" else if r7 < r14 then "Decreasing" else "Stable"

/-- The case_trend column for one location group. -/
def calcCaseTrend (rows : List ObsRow) (loc : String) : List String :=
  List.zipWith trendLabel (calcRollingMean rows 7 loc) (calcRollingMean rows 14 loc)

/-- The single-location example series from the specification:
new_cases 10, 20, 30, 40, 50, 60, 70. -/
def alphaRows : List ObsRow :=
  [⟨"Alpha", 10⟩, ⟨"Alpha", 20⟩, ⟨"Alpha", 30⟩, ⟨"Alpha", 40⟩,
   ⟨"Alpha", 50⟩, ⟨"Alpha", 60⟩, ⟨"Alpha", 70⟩]

/-- A calendar date, standing for a pandas timestamp at day
granularity. -/
structure Date where
  y : Nat
  m : Nat
  d : Nat
deriving DecidableEq, Repr

/-- Gregorian leap year test. -/
def isLeap (y : Nat) : Bool :=
  (y % 4 == 0 && y % 100 != 0) || (y % 400 == 0)

/-- Number of days in a month of a given year. -/
def daysInMonth (y m : Nat) : Nat :=
  if m = 2 then (if isLeap y then 29 else 28)
  else if m = 4 ∨ m = 6 ∨ m = 9 ∨ m = 11 then 30
  else 31

/-- A date is valid when its month and day lie in calendar range. -/
def Date.valid (dt : Date) : Prop :=
  1 ≤ dt.m ∧ dt.m ≤ 12 ∧ 1 ≤ dt.d ∧ dt.d ≤ daysInMonth dt.y dt.m

instance (dt : Date) : Decidable dt.valid := by
  unfold Date.valid
  infer_instance

/-- The DateKey surrogate key: the date formatted as the integer
YYYYMMDD, as strftime followed by astype int produces it. -/
def Date.key (dt : Date) : Nat :=
  dt.y * 10000 + dt.m * 100 + dt.d

/-- The next calendar day. -/
def Date.next (dt : Date) : Date :=
  if dt.d < daysInMonth dt.y dt.m then ⟨dt.y, dt.m, dt.d + 1⟩
  else if dt.m < 12 then ⟨dt.y, dt.m + 1, 1⟩
  else ⟨dt.y + 1, 1, 1⟩

/-- The previous calendar day. -/
def Date.prev (dt : Date) : Date :=
  if 1 < dt.d then ⟨dt.y, dt.m, dt.d - 1⟩
  else if 1 < dt.m then ⟨dt.y, dt.m - 1, daysInMonth dt.y (dt.m - 1)⟩
  else ⟨dt.y - 1, 12, 31⟩

/-- timedelta subtraction of n days. -/
def Date.subDays (dt : Date) : Nat → Date
  | 0 => dt
  | n + 1 => (dt.subDays n).prev

/-- timedelta addition of n days. -/
def Date.addDays (dt : Date) : Nat → Date
  | 0 => dt
  | n + 1 => (dt.addDays n).next

/-- PandemicPhase from create_date_dimension (analytics.py): pandas
cut of the date over the six fixed breakpoints, include_lowest set,
so the intervals are right-closed; cutting a timestamp is cutting its
ordinal, here represented by the YYYYMMDD key, which is strictly
monotone in the date. -/
def pandemicPhaseDim (dt : Date) : Option String :=
  cut dt.key
    [(Date.mk 2020 1 1).key, (Date.mk 2020 6 1).key, (Date.mk 2020 12 1).key,
      (Date.mk 2021 6 1).key, (Date.mk 2021 12 1).key, (Date.mk 2022 6 1).key,
      (Date.mk 2030 12 31).key]
    ["Initial Outbreak", "First Wave", "Second Wave & Early Vaccination",
      "Delta Variant", "Omicron Surge", "Endemic Phase"]

/-- The pandemic phase classifier from data_processing.py,
np.select over strict less-than conditions against the same
breakpoints, with default Unknown. -/
def classifyPandemicPhase (dt : Date) : String :=
  if dt.key < (Date.mk 2020 6 1).key then "Initial Outbreak"
  else if dt.key < (Date.mk 2020 12 1).key then "First Wave"
  else if dt.key < (Date.mk 2021 6 1).key then "Second Wave"
  else if dt.key < (Date.mk 2021 12 1).key then "Delta Variant"
  else if dt.key < (Date.mk 2022 6 1).key then "Omicron Surge"
  else if (Date.mk 2022 6 1).key ≤ dt.key then "Endemic Phase"
  else "Unknown"

/-- The recursion behind pandas date_range: emit consecutive calendar
days while the current key does not exceed the end key; the fuel is a
step budget that the caller sizes to the key span. -/
def dateRangeGo (endKey : Nat) : Nat → Date → List Date
  | 0, _ => []
  | fuel + 1, cur =>
      if cur.key ≤ endKey then cur :: dateRangeGo endKey fuel cur.next else []

/-- pandas date_range(start, end, freq=D): the consecutive calendar
days from start to stop inclusive. -/
def dateRange (start stop : Date) : List Date :=
  dateRangeGo stop.key (stop.key + 1 - start.key) start

/-- df date min, as pandas computes it on the date column: the
argmin under the chronological (key) order, with a dummy default for
the empty frame. -/
def minD (l : List Date) : Date :=
  (l.argmin Date.key).getD ⟨1900, 1, 1⟩

/-- df date max on the date column. -/
def maxD (l : List Date) : Date :=
  (l.argmax Date.key).getD ⟨1900, 1, 1⟩

/-- The date dimension table of create_date_dimension (analytics.py),
restricted to the columns the claims speak about: the Date column,
the DateKey column and the PandemicPhase column. -/
structure DateDim where
  dates : List Date
  dateKeys : List Nat
  phases : List (Option String)

/-- create_date_dimension (analytics.py): span the calendar from 30
days before the data minimum to 365 days after the data maximum, one
row per day, key each row by YYYYMMDD and label its pandemic phase. -/
def createDateDimension (obs : List Date) : DateDim :=
  ⟨dateRange ((minD obs).subDays 30) ((maxD obs).addDays 365),
    (dateRange ((minD obs).subDays 30) ((maxD obs).addDays 365)).map Date.key,
    (dateRange ((minD obs).subDays 30) ((maxD obs).addDays 365)).map pandemicPhaseDim⟩

/-- One observation row as the geography dimension builder reads it:
the location name plus the demographic, economic and health attribute
cells keyed by column name. -/
structure GeoRow where
  location : String
  attrs : String → FVal

/-- pandas drop_duplicates(subset=[location]) with the default
keep-first policy: retain the first row for each location name and
drop every later row with the same name. -/
def dedupByLocation : List GeoRow → List GeoRow
  | [] => []
  | r :: rs => r :: dedupByLocation (rs.filter (fun x => x.location != r.location))
termination_by l => l.length
decreasing_by
  simp only [List.length_cons]
  exact Nat.lt_succ_of_le (List.length_filter_le _ _)

/-- create_geography_dimension (analytics.py): deduplicate the
observation rows by location (first occurrence wins) and attach the
dense surrogate LocationKey range(1, n+1) in row order; the income,
population and development classifications applied afterwards are the
standalone binning functions incomeGroup, populationCategory and
developmentLevel. -/
def createGeographyDimension (rows : List GeoRow) : List (GeoRow × Nat) :=
  (dedupByLocation rows).zip (List.range' 1 (dedupByLocation rows).length)

/-- One fact row as the specialized fact-table builders read it: a
location, a date and the numeric measure cells keyed by column
name. -/
structure FactRow where
  location : String
  date : Date
  vals : String → FVal

/-- A dataframe: the list of column names present plus the rows. -/
structure DFrame where
  cols : List String
  rows : List FactRow

/-- The empty dataframe returned by the insufficient-data branches. -/
def emptyDF : DFrame := ⟨[], []⟩

/-- Candidate column list of create_vaccination_fact_table. -/
def vaxColumns : List String :=
  ["location", "date", "total_vaccinations", "people_vaccinated",
    "people_fully_vaccinated", "total_boosters", "new_vaccinations",
    "total_vaccinations_per_hundred", "people_vaccinated_per_hundred",
    "people_fully_vaccinated_per_hundred", "total_boosters_per_hundred"]

/-- Candidate column list of create_testing_fact_table. -/
def testColumns : List String :=
  ["location", "date", "total_tests", "new_tests", "total_tests_per_thousand",
    "new_tests_per_thousand", "positive_rate", "tests_per_case", "tests_units"]

/-- Candidate column list of create_policy_fact_table. -/
def policyColumns : List String :=
  ["location", "date", "stringency_index", "reproduction_rate"]

/-- The candidate columns actually present in the frame, in candidate
order, as the list comprehension in each builder computes them. -/
def availableColumns (cand : List String) (df : DFrame) : List String :=
  cand.filter (fun c => df.cols.contains c)

/-- LocationKey lookup through the geography-dimension dictionary:
Series.map leaves unmatched locations as NaN rather than failing. -/
def locationKeyMap (geo : List (String × Nat)) (loc : String) : FVal :=
  match geo.find? (fun p => p.1 == loc) with
  | some p => FVal.num p.2
  | none => FVal.nan

/-- The milestone indicator (series ge threshold).astype(int): NaN
compares false and yields 0. -/
def geIndicator (t : ℚ) : FVal → FVal
  | FVal.num a => if t ≤ a then FVal.num 1 else FVal.num 0
  | FVal.inf => FVal.num 1
  | _ => FVal.num 0

/-- Key columns appended by every fact builder. -/
def addFactKeys (geo : List (String × Nat)) (r : FactRow) : FactRow :=
  ⟨r.location, r.date, fun c =>
    if c = "DateKey" then FVal.num r.date.key
    else if c = "LocationKey" then locationKeyMap geo r.location
    else r.vals c⟩

/-- create_vaccination_fact_table (analytics.py).  With fewer than
three candidate columns present it logs a warning and returns an
empty frame; otherwise it selects the available columns, drops rows
whose measures are all missing, derives DateKey and LocationKey
(raising a key error if the date or location column is absent from
the selection), derives people_partially_vaccinated when both people
counts are present, and adds the milestone flags. -/
def create_vaccination_fact_table (df : DFrame) (geo : List (String × Nat)) :
    Except String DFrame :=
  let avail := availableColumns vaxColumns df
  if avail.length < 3 then Except.ok emptyDF
  else if "date" ∈ avail then
    if "location" ∈ avail then
      let kept := df.rows.filter
        (fun r => (avail.drop 2).any (fun c => decide (r.vals c ≠ FVal.nan)))
      let staged := kept.map (addFactKeys geo)
      let both := "people_vaccinated" ∈ avail ∧ "people_fully_vaccinated" ∈ avail
      let withPartial := staged.map (fun r =>
        if both then
          ⟨r.location, r.date, fun c =>
            if c = "people_partially_vaccinated" then
              people_partially_vaccinated (r.vals "people_vaccinated")
                (r.vals "people_fully_vaccinated")
            else r.vals c⟩
        else r)
      let withMilestones := withPartial.map (fun r =>
        if "people_fully_vaccinated_per_hundred" ∈ avail then
          ⟨r.location, r.date, fun c =>
            if c = "reached_50_percent" then
              geIndicator 50 (r.vals "people_fully_vaccinated_per_hundred")
            else if c = "reached_70_percent" then
              geIndicator 70 (r.vals "people_fully_vaccinated_per_hundred")
            else r.vals c⟩
        else r)
      Except.ok ⟨avail ++ ["DateKey", "LocationKey"] ++
        (if both then ["people_partially_vaccinated"] else []) ++
        (if "people_fully_vaccinated_per_hundred" ∈ avail then
          ["reached_50_percent", "reached_70_percent"] else []), withMilestones⟩
    else Except.error "KeyError: location"
  else Except.error "KeyError: date"

/-- create_testing_fact_table (analytics.py).  With fewer than three
candidate columns present it returns an empty frame; otherwise it
keeps rows with at least one of the three leading test measures,
derives the keys and attaches the TestingIntensity and
PositivityCategory cut columns (computed by the standalone
testingIntensity and positivityCategory binning functions). -/
def create_testing_fact_table (df : DFrame) (geo : List (String × Nat)) :
    Except String DFrame :=
  let avail := availableColumns testColumns df
  if avail.length < 3 then Except.ok emptyDF
  else if "date" ∈ avail then
    if "location" ∈ avail then
      let kept := df.rows.filter
        (fun r => ((avail.drop 2).take 3).any (fun c => decide (r.vals c ≠ FVal.nan)))
      Except.ok ⟨avail ++ ["DateKey", "LocationKey"] ++
        (if "total_tests_per_thousand" ∈ avail then ["TestingIntensity"] else []) ++
        (if "positive_rate" ∈ avail then ["PositivityCategory"] else []),
        kept.map (addFactKeys geo)⟩
    else Except.error "KeyError: location"
  else Except.error "KeyError: date"

/-- create_policy_fact_table (analytics.py).  With fewer than three
candidate columns present it returns an empty frame; otherwise it
drops rows whose stringency_index is missing (a key error if that
column is absent), derives the keys and attaches the StringencyLevel
and TransmissionLevel cut columns (computed by the standalone
stringencyLevel and transmissionLevel binning functions). -/
def create_policy_fact_table (df : DFrame) (geo : List (String × Nat)) :
    Except String DFrame :=
  let avail := availableColumns policyColumns df
  if avail.length < 3 then Except.ok emptyDF
  else if "stringency_index" ∈ avail then
    if "date" ∈ avail then
      if "location" ∈ avail then
        let kept := df.rows.filter
          (fun r => decide (r.vals "stringency_index" ≠ FVal.nan))
        Except.ok ⟨avail ++ ["DateKey", "LocationKey", "StringencyLevel"] ++
          (if "reproduction_rate" ∈ avail then ["TransmissionLevel"] else []),
          kept.map (addFactKeys geo)⟩
      else Except.error "KeyError: location"
    else Except.error "KeyError: date"
  else Except.error "KeyError: stringency_index"

-- DEFSPLIT --

/-- The edge scanner yields a label as soon as some upper edge is at
least the value and enough labels are supplied. -/
theorem cutGo_isSome {α L : Type} [LinearOrder α] (v : α) :
    ∀ (es : List α) (ls : List L), es.length ≤ ls.length →
      (∃ e ∈ es, v ≤ e) → (cutGo v es ls).isSome = true := by
  intro es
  induction es with
  | nil => intro ls _ h; simp at h
  | cons e es ih =>
    intro ls hlen hex
    cases ls with
    | nil => simp at hlen
    | cons l ls =>
      by_cases hv : v ≤ e
      · simp [cutGo, hv]
      · rcases hex with ⟨e1, he1, hve1⟩
        rcases List.mem_cons.mp he1 with rfl | hmem
        · exact absurd hve1 hv
        · simpa [cutGo, hv] using ih ls (by simpa using hlen) ⟨e1, hmem, hve1⟩

/-- The edge scanner returns a missing category when the value lies
strictly above every upper edge. -/
theorem cutGo_eq_none {α L : Type} [LinearOrder α] (v : α) :
    ∀ (es : List α) (ls : List L), (∀ e ∈ es, e < v) → cutGo v es ls = none := by
  intro es
  induction es with
  | nil => intro ls _; cases ls <;> rfl
  | cons e es ih =>
    intro ls hall
    cases ls with
    | nil => rfl
    | cons l ls =>
      have he : e < v := hall e (List.mem_cons_self e es)
      have : ¬ v ≤ e := not_le.mpr he
      simp only [cutGo, this, if_false]
      exact ih ls fun x hx => hall x (List.mem_cons_of_mem e hx)

/-- cut assigns a label to every value between the lowest edge and
some upper edge, provided enough labels are supplied. -/
theorem cut_isSome {α L : Type} [LinearOrder α] (v e0 : α) (rest : List α) (ls : List L)
    (hlen : rest.length ≤ ls.length) (h0 : e0 ≤ v) (hex : ∃ e ∈ rest, v ≤ e) :
    (cut v (e0 :: rest) ls).isSome = true := by
  have : ¬ v < e0 := not_lt.mpr h0
  simpa [cut, this] using cutGo_isSome v rest ls hlen hex

/-- cut assigns a missing category to any value below the lowest
edge. -/
theorem cut_eq_none_below {α L : Type} [LinearOrder α] (v e0 : α) (rest : List α)
    (ls : List L) (h : v < e0) : cut v (e0 :: rest) ls = none := by
  simp [cut, h]

/-- cut assigns a missing category to any value strictly above every
edge. -/
theorem cut_eq_none_above {α L : Type} [LinearOrder α] (v e0 : α) (rest : List α)
    (ls : List L) (h : ∀ e ∈ e0 :: rest, e < v) : cut v (e0 :: rest) ls = none := by
  have h0 : ¬ v < e0 := not_lt.mpr (le_of_lt (h e0 (List.mem_cons_self e0 rest)))
  simp only [cut, h0, if_false]
  exact cutGo_eq_none v rest ls fun e he => h e (List.mem_cons_of_mem e0 he)

/-- A value multiplied by 100 and clipped to the range 0 to 100 is
either NaN or a number inside the closed range; infinities collapse
onto the bounds. -/
theorem clip_mul100_mem (x : FVal) :
    FVal.clip 0 100 (FVal.mul100 x) = FVal.nan ∨
      ∃ q : ℚ, FVal.clip 0 100 (FVal.mul100 x) = FVal.num q ∧ 0 ≤ q ∧ q ≤ 100 := by
  cases x with
  | num a =>
    refine Or.inr ⟨max 0 (min (a * 100) 100), rfl, le_max_left _ _, ?_⟩
    exact max_le (by norm_num) (min_le_right _ _)
  | nan => exact Or.inl rfl
  | inf => exact Or.inr ⟨100, rfl, by norm_num, le_refl _⟩
  | ninf => exact Or.inr ⟨0, rfl, le_refl _, by norm_num⟩

/-- Claim C5, counterexample.  The claim asserts that the case
fatality rate obtains the value 0 whenever the denominator is zero.
On the code, fillna(0) only replaces NaN: a positive death count over
a zero case count divides to positive infinity, which fillna leaves
in place. -/
theorem C5_counterexample :
    case_fatality_rate (FVal.num 5) (FVal.num 0) = FVal.inf ∧
    case_fatality_rate (FVal.num 5) (FVal.num 0) ≠ FVal.num 0 := by
  refine ⟨by decide, by decide⟩

/-- Claim C5, amended.  Case fatality rate and case growth rate
obtain the value 0 exactly when the division yields NaN, that is,
when either operand is missing or both numerator and denominator are
zero; a positive numerator over a zero denominator yields positive
infinity, which the fill-with-zero step does not replace.  The
positivity rate is either missing or a number in the closed range 0
to 100, infinite quotients being collapsed onto the bounds by the
clip. -/
theorem C5_ratio_metrics :
    ∀ d c nc nt : FVal,
      (c = FVal.nan → case_fatality_rate d c = FVal.num 0) ∧
      (d = FVal.nan → case_fatality_rate d c = FVal.num 0) ∧
      case_fatality_rate (FVal.num 0) (FVal.num 0) = FVal.num 0 ∧
      (∀ q : ℚ, 0 < q → case_fatality_rate (FVal.num q) (FVal.num 0) = FVal.inf) ∧
      (c = FVal.nan → case_growth_rate nc c = FVal.num 0) ∧
      (nc = FVal.nan → case_growth_rate nc c = FVal.num 0) ∧
      (∀ q : ℚ, 0 < q → case_growth_rate (FVal.num q) (FVal.num 0) = FVal.inf) ∧
      (positive_rate nc nt = FVal.nan ∨
        ∃ q : ℚ, positive_rate nc nt = FVal.num q ∧ 0 ≤ q ∧ q ≤ 100) := by
  intro d c nc nt
  refine ⟨?_, ?_, by decide, ?_, ?_, ?_, ?_, clip_mul100_mem _⟩
  · rintro rfl
    cases d <;> rfl
  · rintro rfl
    cases c <;> rfl
  · intro q hq
    simp [case_fatality_rate, FVal.div, FVal.mul100, FVal.fillna0, hq]
  · rintro rfl
    cases nc <;> rfl
  · rintro rfl
    cases c <;> rfl
  · intro q hq
    simp [case_growth_rate, FVal.div, FVal.mul100, FVal.fillna0, hq]

/-- Witness for claim C5, amended, at concrete inputs: a missing
denominator gives 0, a positive numerator over zero gives positive
infinity, and a concrete positivity computation lands in range. -/
theorem C5_ratio_metrics_witness :
    case_fatality_rate (FVal.num 3) FVal.nan = FVal.num 0 ∧
    case_growth_rate (FVal.num 2) (FVal.num 0) = FVal.inf ∧
    (positive_rate (FVal.num 50) (FVal.num 200) = FVal.nan ∨
      ∃ q : ℚ, positive_rate (FVal.num 50) (FVal.num 200) = FVal.num q ∧ 0 ≤ q ∧ q ≤ 100) := by
  have h := C5_ratio_metrics (FVal.num 3) FVal.nan (FVal.num 50) (FVal.num 200)
  exact ⟨h.1 rfl, h.2.2.2.2.2.2.1 2 (by norm_num), h.2.2.2.2.2.2.2⟩

/-- Claim C10: in the vaccination fact table, when both people
counts are numeric the derived people_partially_vaccinated equals the
maximum of their difference and zero, and the derived value is never
a negative number, even when more people are reported fully
vaccinated than vaccinated. -/
theorem C10_partially_vaccinated :
    ∀ pv pfv : FVal,
      (∀ a b : ℚ, pv = FVal.num a → pfv = FVal.num b →
        people_partially_vaccinated pv pfv = FVal.num (max (a - b) 0)) ∧
      (∀ q : ℚ, people_partially_vaccinated pv pfv = FVal.num q → 0 ≤ q) := by
  intro pv pfv
  constructor
  · rintro a b rfl rfl
    simp [people_partially_vaccinated, FVal.sub, FVal.clipLower, max_comm]
  · intro q hq
    cases pv <;> cases pfv <;>
      simp only [people_partially_vaccinated, FVal.sub, FVal.clipLower,
        FVal.num.injEq, reduceCtorEq] at hq
    all_goals first
      | exact absurd hq (by simp)
      | (rw [← hq]; exact le_max_left _ _)
      | (rw [← hq])

/-- Witness for claim C10: a row reporting 100 vaccinated and 150
fully vaccinated people yields a partially vaccinated count of zero,
not a negative number. -/
theorem C10_partially_vaccinated_witness :
    people_partially_vaccinated (FVal.num 100) (FVal.num 150) = FVal.num 0 := by
  have h := (C10_partially_vaccinated (FVal.num 100) (FVal.num 150)).1 100 150 rfl rfl
  rw [max_eq_right (by norm_num : (100 : ℚ) - 150 ≤ 0)] at h
  exact h

/-- Indexing a zipWith at a position where both lists are defined
yields the function applied to the two entries. -/
theorem zipWith_getElem_some {α β γ : Type} (f : α → β → γ) :
    ∀ (as : List α) (bs : List β) (k : Nat) (a : α) (b : β),
      as[k]? = some a → bs[k]? = some b →
      (List.zipWith f as bs)[k]? = some (f a b) := by
  intro as
  induction as with
  | nil => intro bs k a b ha; simp at ha
  | cons x xs ih =>
    intro bs k a b ha hb
    cases bs with
    | nil => simp at hb
    | cons y ys =>
      cases k with
      | zero =>
        simp only [List.getElem?_cons_zero, Option.some.injEq] at ha hb
        simp [List.zipWith, ha, hb]
      | succ n =>
        simp only [List.getElem?_cons_succ] at ha hb
        simpa [List.zipWith] using ih ys n a b ha hb

/-- Claim C4: the rolling mean over window w uses min_periods 1
semantics.  For every per-location series, the entry at position k
with k lt w is the mean of the first k+1 values, the first entry
equals the first observation, and on the documented example series
10, 20, ..., 70 the 7-day rolling mean is 10 on day 1 and 40 on
day 7. -/
theorem C4_rolling_min_periods :
    ∀ (rows : List ObsRow) (loc : String) (w k : Nat), 1 ≤ w →
      ((k < w → k < (newCasesSeries rows loc).length →
          (calcRollingMean rows w loc)[k]? =
            some (((newCasesSeries rows loc).take (k + 1)).sum / ((k + 1 : Nat) : ℚ))) ∧
        (∀ x : ℚ, (newCasesSeries rows loc)[0]? = some x →
          (calcRollingMean rows w loc)[0]? = some x)) ∧
      (calcRollingMean alphaRows 7 "Alpha")[0]? = some 10 ∧
      (calcRollingMean alphaRows 7 "Alpha")[6]? = some 40 := by
  intro rows loc w k hw
  have main : ∀ j, j < w → j < (newCasesSeries rows loc).length →
      (calcRollingMean rows w loc)[j]? =
        some (((newCasesSeries rows loc).take (j + 1)).sum / ((j + 1 : Nat) : ℚ)) := by
    intro j hjw hjlen
    have hdrop : j + 1 - w = 0 := Nat.sub_eq_zero_of_le hjw
    have hlen : ((newCasesSeries rows loc).take (j + 1)).length = j + 1 := by
      rw [List.length_take]
      exact min_eq_left hjlen
    simp only [calcRollingMean, rollingMean, List.getElem?_map, List.getElem?_range, hjlen,
      if_pos hjlen, Option.map_some']
    simp only [hdrop, List.drop_zero, listMean, hlen]
  refine ⟨⟨main k, ?_⟩, ?_, ?_⟩
  · intro x hx
    have hlen : 0 < (newCasesSeries rows loc).length := by
      rcases List.getElem?_eq_some_iff.mp hx with ⟨h0, _⟩
      exact h0
    have h := main 0 hw hlen
    rcases List.getElem?_eq_some_iff.mp hx with ⟨h0, hval⟩
    cases hxs : newCasesSeries rows loc with
    | nil => rw [hxs] at hlen; simp at hlen
    | cons y ys =>
      rw [hxs] at h hx
      simp only [List.getElem?_cons_zero, Option.some.injEq] at hx
      simpa [hx] using h
  · norm_num [calcRollingMean, newCasesSeries, alphaRows, rollingMean, listMean,
      List.filter, List.range, List.range.loop]
  · norm_num [calcRollingMean, newCasesSeries, alphaRows, rollingMean, listMean,
      List.filter, List.range, List.range.loop]

/-- Witness for claim C4 on the example series: day 2 of the 7-day
rolling mean is the mean of the first two values. -/
theorem C4_rolling_witness :
    (calcRollingMean alphaRows 7 "Alpha")[1]? = some 15 := by
  have h := ((C4_rolling_min_periods alphaRows "Alpha" 7 1 (by norm_num)).1.1
    (by norm_num) (by norm_num [newCasesSeries, alphaRows, List.filter]))
  rw [h]
  norm_num [newCasesSeries, alphaRows, List.filter]

/-- Claim C8: the case_trend label is Increasing exactly when the
7-day rolling average strictly exceeds the 14-day rolling average,
Decreasing exactly when it is strictly smaller, and Stable when the
two are exactly equal. -/
theorem C8_case_trend :
    ∀ (rows : List ObsRow) (loc : String) (k : Nat) (a b : ℚ),
      (calcRollingMean rows 7 loc)[k]? = some a →
      (calcRollingMean rows 14 loc)[k]? = some b →
      (((calcCaseTrend rows loc)[k]? = some "Increasing" ↔ b < a) ∧
        ((calcCaseTrend rows loc)[k]? = some "Decreasing" ↔ a < b) ∧
        (a = b → (calcCaseTrend rows loc)[k]? = some "Stable")) := by
  intro rows loc k a b h7 h14
  have hz : (calcCaseTrend rows loc)[k]? = some (trendLabel a b) :=
    zipWith_getElem_some trendLabel _ _ k a b h7 h14
  rcases lt_trichotomy a b with h | h | h
  · have hnot : ¬ b < a := not_lt.mpr h.le
    refine ⟨?_, ?_, ?_⟩
    · rw [hz]; simp [trendLabel, h, hnot]
    · rw [hz]; simp [trendLabel, h, hnot]
    · intro he; exact absurd he (ne_of_lt h)
  · subst h
    refine ⟨?_, ?_, fun _ => ?_⟩ <;> rw [hz] <;> simp [trendLabel]
  · have hnot : ¬ a < b := not_lt.mpr h.le
    refine ⟨?_, ?_, ?_⟩
    · rw [hz]; simp [trendLabel, h, hnot]
    · rw [hz]; simp [trendLabel, h, hnot]
    · intro he; exact absurd he (ne_of_gt h)

/-- Witness for claim C8 on a concrete stable pair of averages. -/
theorem C8_case_trend_witness :
    (calcCaseTrend alphaRows "Alpha")[0]? = some "Stable" := by
  have h7 : (calcRollingMean alphaRows 7 "Alpha")[0]? = some 10 := by
    norm_num [calcRollingMean, newCasesSeries, alphaRows, rollingMean, listMean,
      List.filter, List.range, List.range.loop]
  have h14 : (calcRollingMean alphaRows 14 "Alpha")[0]? = some 10 := by
    norm_num [calcRollingMean, newCasesSeries, alphaRows, rollingMean, listMean,
      List.filter, List.range, List.range.loop]
  exact (C8_case_trend alphaRows "Alpha" 0 10 10 h7 h14).2.2 rfl

/-- Claim C1, counterexample.  The claim asserts left-inclusive
binning with values below the lowest edge assigned to the lowest
bucket.  On the code, pandas cut with include_lowest is
right-inclusive: gdp_per_capita exactly 1045 (the lower edge of the
Lower Middle Income bin) is assigned Low Income, and a value below
the lowest edge receives a missing category, not the lowest label. -/
theorem C1_counterexample :
    incomeGroup (-1) = none ∧ incomeGroup (-1) ≠ some "Low Income" ∧
    incomeGroup 1045 = some "Low Income" ∧ incomeGroup 1045 ≠ some "Lower Middle Income" := by
  refine ⟨by decide, by decide, by decide, by decide⟩

/-- Claim C1, amended.  Every categorical binning function (income
group, population size, development level, vaccination status,
testing intensity, positivity category, stringency level,
transmission level) is right-inclusive with the lowest edge included:
every finite input value within the documented edge range is assigned
exactly one label, the lowest edge belongs to the lowest bin and the
upper edge of each bin belongs to that bin, and values below the
lowest edge (or above a finite top edge) receive a missing category
rather than the nearest label. -/
theorem C1_binning_right_inclusive :
    ∀ v : ℚ,
      ((0 ≤ v →
          (incomeGroup v).isSome = true ∧ (populationCategory v).isSome = true ∧
          (testingIntensity v).isSome = true ∧ (positivityCategory v).isSome = true ∧
          (transmissionLevel v).isSome = true) ∧
        (0 ≤ v → v ≤ 1 → (developmentLevel v).isSome = true) ∧
        (0 ≤ v → v ≤ 100 →
          (vaccinationStatus v).isSome = true ∧ (stringencyLevel v).isSome = true) ∧
        (v < 0 →
          incomeGroup v = none ∧ populationCategory v = none ∧ developmentLevel v = none ∧
          vaccinationStatus v = none ∧ testingIntensity v = none ∧
          positivityCategory v = none ∧ stringencyLevel v = none ∧
          transmissionLevel v = none)) ∧
      (incomeGroup 0 = some "Low Income" ∧ incomeGroup 1045 = some "Low Income" ∧
        incomeGroup 4095 = some "Lower Middle Income" ∧
        incomeGroup 12695 = some "Upper Middle Income" ∧
        developmentLevel (mkRat 550 1000) = some "Low" ∧
        vaccinationStatus 25 = some "Low (<25%)" ∧
        vaccinationStatus 100 = some "Very High (>75%)" ∧
        testingIntensity 100 = some "Low (<100)" ∧ positivityCategory 5 = some "Low (<5%)" ∧
        stringencyLevel 75 = some "High (50-75)" ∧
        transmissionLevel (mkRat 8 10) = some "Declining (<0.8)") := by
  intro v
  refine ⟨⟨fun hv => ?_, fun hv hv1 => ?_, fun hv hv100 => ?_, fun hv => ?_⟩, ?_⟩
  · refine ⟨?_, ?_, ?_, ?_, ?_⟩ <;>
      exact cut_isSome _ _ _ _ (by norm_num) (WithTop.coe_le_coe.mpr hv)
        ⟨⊤, by simp, le_top⟩
  · exact cut_isSome _ _ _ _ (by norm_num) (WithTop.coe_le_coe.mpr hv)
      ⟨((1 : ℚ) : WithTop ℚ), by simp, WithTop.coe_le_coe.mpr hv1⟩
  · constructor <;>
      exact cut_isSome _ _ _ _ (by norm_num) (WithTop.coe_le_coe.mpr hv)
        ⟨((100 : ℚ) : WithTop ℚ), by simp, WithTop.coe_le_coe.mpr hv100⟩
  · refine ⟨?_, ?_, ?_, ?_, ?_, ?_, ?_, ?_⟩ <;>
      exact cut_eq_none_below _ _ _ _ (WithTop.coe_lt_coe.mpr hv)
  · refine ⟨by decide, by decide, by decide, by decide, by decide, by decide,
      by decide, by decide, by decide, by decide, by decide⟩

/-- Witness for claim C1, amended: a value inside every documented
range is labelled, and a negative value is mapped to a missing
category by every binning function. -/
theorem C1_binning_witness :
    (incomeGroup 50).isSome = true ∧ (developmentLevel (mkRat 1 2)).isSome = true ∧
    vaccinationStatus (-3) = none := by
  refine ⟨((C1_binning_right_inclusive 50).1.1 (by norm_num)).1,
    (C1_binning_right_inclusive (mkRat 1 2)).1.2.1 (by norm_num) (by norm_num),
    ?_⟩
  exact ((C1_binning_right_inclusive (-3)).1.2.2.2 (by norm_num)).2.2.2.1

/-- Claim C9: for the two binning domains whose top edge is the
finite value 100 (vaccination status and stringency level), any input
strictly above the top edge receives a missing category, not the
highest label. -/
theorem C9_above_top_edge_missing :
    ∀ v : ℚ, 100 < v → vaccinationStatus v = none ∧ stringencyLevel v = none := by
  intro v hv
  constructor <;>
  · apply cut_eq_none_above
    intro e he
    simp only [List.mem_cons, List.not_mem_nil, or_false] at he
    rcases he with rfl | rfl | rfl | rfl | rfl <;>
      exact WithTop.coe_lt_coe.mpr (by linarith)

/-- Witness for claim C9 at the concrete input 150. -/
theorem C9_above_top_edge_witness :
    vaccinationStatus 150 = none ∧ stringencyLevel 150 = none :=
  C9_above_top_edge_missing 150 (by norm_num)

/-- Every month length lies between 28 and 31 days. -/
theorem daysInMonth_bounds (y m : Nat) :
    28 ≤ daysInMonth y m ∧ daysInMonth y m ≤ 31 := by
  unfold daysInMonth
  split_ifs <;> norm_num

/-- December has 31 days in every year. -/
theorem daysInMonth_dec (y : Nat) : daysInMonth y 12 = 31 := by
  norm_num [daysInMonth]

/-- Stepping to the next day preserves validity and advances the
YYYYMMDD key by at least one and at most 8870 (the year-boundary
jump). -/
theorem next_ok : ∀ dt : Date, dt.valid →
    dt.next.valid ∧ dt.key < dt.next.key ∧ dt.next.key ≤ dt.key + 8870 := by
  rintro ⟨y, m, d⟩ ⟨h1, h2, h3, h4⟩
  have hb1 := (daysInMonth_bounds y m).1
  have hb2 := (daysInMonth_bounds y m).2
  have hc1 := (daysInMonth_bounds y (m + 1)).1
  have hd1 := (daysInMonth_bounds (y + 1) 1).1
  try dsimp only at h1 h2 h3 h4
  by_cases ha : d < daysInMonth y m
  · have hn : Date.next ⟨y, m, d⟩ = ⟨y, m, d + 1⟩ := by
      simp [Date.next, ha]
    rw [hn]
    refine ⟨?_, ?_, ?_⟩ <;> simp only [Date.valid, Date.key] <;> (try dsimp only) <;> omega
  · by_cases hm : m < 12
    · have hn : Date.next ⟨y, m, d⟩ = ⟨y, m + 1, 1⟩ := by
        simp [Date.next, ha, hm]
      rw [hn]
      refine ⟨?_, ?_, ?_⟩ <;> simp only [Date.valid, Date.key] <;> (try dsimp only) <;> omega
    · have hm12 : m = 12 := by omega
      subst hm12
      rw [daysInMonth_dec] at ha h4
      have hn : Date.next ⟨y, 12, d⟩ = ⟨y + 1, 1, 1⟩ := by
        simp [Date.next, daysInMonth_dec, ha]
      rw [hn]
      refine ⟨?_, ?_, ?_⟩ <;> simp only [Date.valid, Date.key] <;> (try dsimp only) <;> omega

/-- Stepping to the previous day, from any valid date with key at
least 400, preserves validity and decreases the key by at least one
and at most 8870. -/
theorem prev_ok : ∀ dt : Date, dt.valid → 400 ≤ dt.key →
    dt.prev.valid ∧ dt.prev.key < dt.key ∧ dt.key ≤ dt.prev.key + 8870 := by
  rintro ⟨y, m, d⟩ ⟨h1, h2, h3, h4⟩ hk
  have hb1 := (daysInMonth_bounds y m).1
  have hb2 := (daysInMonth_bounds y m).2
  have hc1 := (daysInMonth_bounds y (m - 1)).1
  have hc2 := (daysInMonth_bounds y (m - 1)).2
  have hd12 := daysInMonth_dec (y - 1)
  try dsimp only at h1 h2 h3 h4
  simp only [Date.key] at hk
  try dsimp only at hk
  by_cases ha : 1 < d
  · have hn : Date.prev ⟨y, m, d⟩ = ⟨y, m, d - 1⟩ := by
      simp [Date.prev, ha]
    rw [hn]
    refine ⟨?_, ?_, ?_⟩ <;> simp only [Date.valid, Date.key] <;> (try dsimp only) <;> omega
  · by_cases hm : 1 < m
    · have hn : Date.prev ⟨y, m, d⟩ = ⟨y, m - 1, daysInMonth y (m - 1)⟩ := by
        simp [Date.prev, ha, hm]
      rw [hn]
      refine ⟨?_, ?_, ?_⟩ <;> simp only [Date.valid, Date.key] <;> (try dsimp only) <;> omega
    · have hn : Date.prev ⟨y, m, d⟩ = ⟨y - 1, 12, 31⟩ := by
        simp [Date.prev, ha, hm]
      rw [hn]
      refine ⟨?_, ?_, ?_⟩ <;> simp only [Date.valid, Date.key] <;> (try dsimp only) <;> omega

/-- The YYYYMMDD key is injective on valid dates. -/
theorem key_inj : ∀ a b : Date, a.valid → b.valid → a.key = b.key → a = b := by
  rintro ⟨ya, ma, da⟩ ⟨yb, mb, db⟩ ⟨ha1, ha2, ha3, ha4⟩ ⟨hb1, hb2, hb3, hb4⟩ h
  have hba := (daysInMonth_bounds ya ma).2
  have hbb := (daysInMonth_bounds yb mb).2
  try dsimp only at ha1 ha2 ha3 ha4 hb1 hb2 hb3 hb4
  simp only [Date.key] at h
  try dsimp only at h
  simp only [Date.mk.injEq]
  omega

/-- Gap lemma: between a valid date and any later valid date there is
no room below the next day, so stepping never skips a valid date. -/
theorem next_le_of_lt : ∀ a b : Date, a.valid → b.valid → a.key < b.key →
    a.next.key ≤ b.key := by
  rintro ⟨ya, ma, da⟩ ⟨yb, mb, db⟩ ⟨ha1, ha2, ha3, ha4⟩ ⟨hb1, hb2, hb3, hb4⟩ h
  have hba1 := (daysInMonth_bounds ya ma).1
  have hba2 := (daysInMonth_bounds ya ma).2
  have hbb1 := (daysInMonth_bounds yb mb).1
  have hbb2 := (daysInMonth_bounds yb mb).2
  try dsimp only at ha1 ha2 ha3 ha4 hb1 hb2 hb3 hb4
  simp only [Date.key] at h ⊢
  try dsimp only at h ⊢
  by_cases hd : da < daysInMonth ya ma
  · have hn : Date.next ⟨ya, ma, da⟩ = ⟨ya, ma, da + 1⟩ := by
      simp [Date.next, hd]
    rw [hn]
    simp only [Date.key]
    try dsimp only
    omega
  · by_cases hm : ma < 12
    · have hn : Date.next ⟨ya, ma, da⟩ = ⟨ya, ma + 1, 1⟩ := by
        simp [Date.next, hd, hm]
      rw [hn]
      simp only [Date.key]
      try dsimp only
      rcases eq_or_ne yb ya with hy | hy
      · subst hy
        rcases eq_or_ne mb ma with hm' | hm'
        · subst hm'
          omega
        · omega
      · omega
    · have hm12 : ma = 12 := by omega
      subst hm12
      rw [daysInMonth_dec] at hd ha4
      have hn : Date.next ⟨ya, 12, da⟩ = ⟨ya + 1, 1, 1⟩ := by
        simp [Date.next, daysInMonth_dec, hd]
      rw [hn]
      simp only [Date.key]
      try dsimp only
      rcases eq_or_ne yb ya with hy | hy
      · subst hy
        omega
      · omega

/-- The range recursion stops immediately once the current day lies
beyond the end key. -/
theorem dateRangeGo_past (endKey : Nat) (fuel : Nat) (cur : Date)
    (h : endKey < cur.key) : dateRangeGo endKey fuel cur = [] := by
  cases fuel with
  | zero => rfl
  | succ n => simp [dateRangeGo, Nat.not_le.mpr h]

/-- Iterated previous-day stepping: given enough key headroom the
result stays valid and the key decreases by at most 8870 per step. -/
theorem subDays_ok : ∀ (n : Nat) (dt : Date), dt.valid → 400 + 8870 * n ≤ dt.key →
    (dt.subDays n).valid ∧ (dt.subDays n).key ≤ dt.key ∧
      dt.key ≤ (dt.subDays n).key + 8870 * n := by
  intro n
  induction n with
  | zero =>
    intro dt hv _
    have h0 : dt.subDays 0 = dt := rfl
    rw [h0]
    exact ⟨hv, le_refl _, by omega⟩
  | succ k ih =>
    intro dt hv hk
    obtain ⟨iv, ile, ige⟩ := ih dt hv (by omega)
    have h400 : 400 ≤ (dt.subDays k).key := by omega
    obtain ⟨pv, plt, pge⟩ := prev_ok (dt.subDays k) iv h400
    have hstep : dt.subDays (k + 1) = (dt.subDays k).prev := rfl
    rw [hstep]
    exact ⟨pv, by omega, by omega⟩

/-- Iterated next-day stepping preserves validity and increases the
key by at most 8870 per step. -/
theorem addDays_ok : ∀ (n : Nat) (dt : Date), dt.valid →
    (dt.addDays n).valid ∧ dt.key ≤ (dt.addDays n).key ∧
      (dt.addDays n).key ≤ dt.key + 8870 * n := by
  intro n
  induction n with
  | zero =>
    intro dt hv
    have h0 : dt.addDays 0 = dt := rfl
    rw [h0]
    exact ⟨hv, le_refl _, by omega⟩
  | succ k ih =>
    intro dt hv
    obtain ⟨iv, ile, ige⟩ := ih dt hv
    obtain ⟨nv, nlt, nle⟩ := next_ok (dt.addDays k) iv
    have hstep : dt.addDays (k + 1) = (dt.addDays k).next := rfl
    rw [hstep]
    exact ⟨nv, by omega, by omega⟩

/-- Full characterisation of the date-range recursion on valid
endpoints: the produced list starts at the start date, ends exactly
at the stop date, advances one calendar day per row, stays inside the
key range, and has strictly increasing keys. -/
theorem dateRangeGo_spec (stop : Date) (hstop : stop.valid) :
    ∀ (fuel : Nat) (cur : Date), cur.valid → cur.key ≤ stop.key →
      stop.key + 1 - cur.key ≤ fuel →
      ((dateRangeGo stop.key fuel cur).head? = some cur ∧
        (dateRangeGo stop.key fuel cur).getLast? = some stop ∧
        List.Chain' (fun a b => b = a.next) (dateRangeGo stop.key fuel cur) ∧
        (∀ x ∈ dateRangeGo stop.key fuel cur,
          x.valid ∧ cur.key ≤ x.key ∧ x.key ≤ stop.key) ∧
        List.Pairwise (· < ·) ((dateRangeGo stop.key fuel cur).map Date.key)) := by
  intro fuel
  induction fuel with
  | zero =>
    intro cur _ hle hf
    exact absurd hf (by omega)
  | succ n ih =>
    intro cur hcv hle hf
    simp only [dateRangeGo, if_pos hle]
    rcases eq_or_lt_of_le hle with heq | hlt
    · have hcs : cur = stop := key_inj cur stop hcv hstop heq
      have hnext : stop.key < cur.next.key := by
        have := (next_ok cur hcv).2.1
        omega
      rw [dateRangeGo_past stop.key n cur.next hnext]
      refine ⟨rfl, by simp [hcs], by simp, ?_, by simp⟩
      intro x hx
      rcases List.mem_singleton.mp hx with rfl
      exact ⟨hcv, le_refl _, hle⟩
    · obtain ⟨hnv, hnk, _⟩ := next_ok cur hcv
      have hnle : cur.next.key ≤ stop.key := next_le_of_lt cur stop hcv hstop hlt
      have hfn : stop.key + 1 - cur.next.key ≤ n := by omega
      obtain ⟨ihh, ihl, ihc, ihb, ihp⟩ := ih cur.next hnv hnle hfn
      cases hrest : dateRangeGo stop.key n cur.next with
      | nil => rw [hrest] at ihh; simp at ihh
      | cons r rs =>
        rw [hrest] at ihh ihl ihc ihb ihp
        simp only [List.head?_cons, Option.some.injEq] at ihh
        refine ⟨rfl, ?_, ?_, ?_, ?_⟩
        · rw [List.getLast?_cons_cons]
          exact ihl
        · exact List.chain'_cons.mpr ⟨ihh, ihc⟩
        · intro x hx
          rcases List.mem_cons.mp hx with rfl | hmem
          · exact ⟨hcv, le_refl _, hle⟩
          · obtain ⟨xv, xlb, xub⟩ := ihb x hmem
            exact ⟨xv, by omega, xub⟩
        · rw [List.map_cons]
          refine List.pairwise_cons.mpr ⟨?_, ihp⟩
          intro b hb
          rcases List.mem_map.mp hb with ⟨x, hxmem, rfl⟩
          have hxlb := (ihb x hxmem).2.1
          omega

/-- The data minimum is an element of a nonempty date column. -/
theorem minD_mem (l : List Date) (h : l ≠ []) : minD l ∈ l := by
  unfold minD
  cases harg : l.argmin Date.key with
  | none => exact absurd (List.argmin_eq_none.mp harg) h
  | some m => simpa using List.argmin_mem harg

/-- The data minimum has the smallest key in the column. -/
theorem minD_le (l : List Date) (h : l ≠ []) :
    ∀ d ∈ l, (minD l).key ≤ d.key := by
  intro d hd
  unfold minD
  cases harg : l.argmin Date.key with
  | none => exact absurd (List.argmin_eq_none.mp harg) h
  | some m => simpa using List.le_of_mem_argmin hd harg

/-- The data maximum is an element of a nonempty date column. -/
theorem maxD_mem (l : List Date) (h : l ≠ []) : maxD l ∈ l := by
  unfold maxD
  cases harg : l.argmax Date.key with
  | none => exact absurd (List.argmax_eq_none.mp harg) h
  | some m => simpa using List.argmax_mem harg

/-- The data maximum has the largest key in the column. -/
theorem maxD_ge (l : List Date) (h : l ≠ []) :
    ∀ d ∈ l, d.key ≤ (maxD l).key := by
  intro d hd
  unfold maxD
  cases harg : l.argmax Date.key with
  | none => exact absurd (List.argmax_eq_none.mp harg) h
  | some m => simpa using List.le_of_mem_argmax hd harg

attribute [irreducible] Date.subDays Date.addDays

/-- The date range on valid ordered endpoints starts at the start
date, ends at the stop date, advances one day per row, stays in the
key interval, and has strictly increasing keys. -/
theorem dateRange_spec (s e : Date) (hs : s.valid) (he : e.valid) (hle : s.key ≤ e.key) :
    (dateRange s e).head? = some s ∧
      (dateRange s e).getLast? = some e ∧
      List.Chain' (fun a b => b = a.next) (dateRange s e) ∧
      (∀ x ∈ dateRange s e, x.valid ∧ s.key ≤ x.key ∧ x.key ≤ e.key) ∧
      List.Pairwise (· < ·) ((dateRange s e).map Date.key) := by
  unfold dateRange
  exact dateRangeGo_spec e he (e.key + 1 - s.key) s hs hle (le_refl _)

/-- The Date column of the date dimension is the calendar range from
30 days before the data minimum to 365 days after the data maximum. -/
theorem createDateDimension_dates (obs : List Date) :
    (createDateDimension obs).dates =
      dateRange ((minD obs).subDays 30) ((maxD obs).addDays 365) := rfl

/-- The DateKey column of the date dimension is the Date column
formatted as the YYYYMMDD integer. -/
theorem createDateDimension_dateKeys (obs : List Date) :
    (createDateDimension obs).dateKeys = (createDateDimension obs).dates.map Date.key := rfl

/-- Claim C3: for every nonempty observation set with a date column
(dates valid and inside the pandas timestamp year range), the date
dimension holds exactly one row per calendar day from 30 days before
the data minimum to 365 days after the data maximum: the Date column
starts at the former, ends at the latter and advances exactly one
calendar day per row; the DateKey column is the date formatted as
YYYYMMDD, is strictly monotonically increasing, and every key is an
8-digit integer. -/
theorem C3_date_dimension :
    ∀ obs : List Date, obs ≠ [] →
      (∀ dt ∈ obs, dt.valid ∧ 1678 ≤ dt.y ∧ dt.y ≤ 2260) →
      ((createDateDimension obs).dates.head? = some ((minD obs).subDays 30) ∧
        (createDateDimension obs).dates.getLast? = some ((maxD obs).addDays 365) ∧
        List.Chain' (fun a b => b = a.next) (createDateDimension obs).dates ∧
        (createDateDimension obs).dateKeys = (createDateDimension obs).dates.map Date.key ∧
        List.Pairwise (· < ·) (createDateDimension obs).dateKeys ∧
        ∀ k ∈ (createDateDimension obs).dateKeys, 10000000 ≤ k ∧ k < 100000000) := by
  intro obs hne hval
  obtain ⟨hminv, hminy1, hminy2⟩ := hval (minD obs) (minD_mem obs hne)
  obtain ⟨hmaxv, hmaxy1, hmaxy2⟩ := hval (maxD obs) (maxD_mem obs hne)
  have hminkey : 16780101 ≤ (minD obs).key ∧ (minD obs).key ≤ 22611231 := by
    obtain ⟨h1, h2, h3, h4⟩ := hminv
    have := (daysInMonth_bounds (minD obs).y (minD obs).m).2
    unfold Date.key
    omega
  have hmaxkey : 16780101 ≤ (maxD obs).key ∧ (maxD obs).key ≤ 22611231 := by
    obtain ⟨h1, h2, h3, h4⟩ := hmaxv
    have := (daysInMonth_bounds (maxD obs).y (maxD obs).m).2
    unfold Date.key
    omega
  have hminmax : (minD obs).key ≤ (maxD obs).key :=
    le_trans (minD_le obs hne (maxD obs) (maxD_mem obs hne)) (le_refl _)
  obtain ⟨hsv, hsle, hsge⟩ := subDays_ok 30 (minD obs) hminv (by omega)
  obtain ⟨hev, hele, hege⟩ := addDays_ok 365 (maxD obs) hmaxv
  have hse : ((minD obs).subDays 30).key ≤ ((maxD obs).addDays 365).key := by omega
  obtain ⟨hh, hl, hc, hb, hp⟩ :=
    dateRange_spec ((minD obs).subDays 30) ((maxD obs).addDays 365) hsv hev hse
  refine ⟨?_, ?_, ?_, createDateDimension_dateKeys obs, ?_, ?_⟩
  · rw [createDateDimension_dates]
    exact hh
  · rw [createDateDimension_dates]
    exact hl
  · rw [createDateDimension_dates]
    exact hc
  · rw [createDateDimension_dateKeys, createDateDimension_dates]
    exact hp
  · intro k hk
    rw [createDateDimension_dateKeys, createDateDimension_dates] at hk
    rcases List.mem_map.mp hk with ⟨x, hxmem, rfl⟩
    obtain ⟨xv, xlb, xub⟩ := hb x hxmem
    omega

/-- Witness for claim C3 on a one-row observation set containing the
single date 2020-03-15. -/
theorem C3_date_dimension_witness :
    ((createDateDimension [⟨2020, 3, 15⟩]).dates.head? =
        some ((minD [⟨2020, 3, 15⟩]).subDays 30) ∧
      (createDateDimension [⟨2020, 3, 15⟩]).dates.getLast? =
        some ((maxD [⟨2020, 3, 15⟩]).addDays 365) ∧
      List.Chain' (fun a b => b = a.next) (createDateDimension [⟨2020, 3, 15⟩]).dates ∧
      (createDateDimension [⟨2020, 3, 15⟩]).dateKeys =
        (createDateDimension [⟨2020, 3, 15⟩]).dates.map Date.key ∧
      List.Pairwise (· < ·) (createDateDimension [⟨2020, 3, 15⟩]).dateKeys ∧
      ∀ k ∈ (createDateDimension [⟨2020, 3, 15⟩]).dateKeys,
        10000000 ≤ k ∧ k < 100000000) :=
  C3_date_dimension [⟨2020, 3, 15⟩] (by decide) (by decide)

/-- Claim C6: each specialized fact-table builder (vaccination,
testing, policy) that finds fewer than three of its candidate columns
present returns the empty table (the warning branch) and raises no
exception in that case. -/
theorem C6_insufficient_columns :
    ∀ (df : DFrame) (geo : List (String × Nat)),
      ((availableColumns vaxColumns df).length < 3 →
        create_vaccination_fact_table df geo = Except.ok emptyDF) ∧
      ((availableColumns testColumns df).length < 3 →
        create_testing_fact_table df geo = Except.ok emptyDF) ∧
      ((availableColumns policyColumns df).length < 3 →
        create_policy_fact_table df geo = Except.ok emptyDF) := by
  intro df geo
  refine ⟨fun h => ?_, fun h => ?_, fun h => ?_⟩
  · simp [create_vaccination_fact_table, h]
  · simp [create_testing_fact_table, h]
  · simp [create_policy_fact_table, h]

/-- Witness for claim C6: a frame holding only a location column has
one available candidate column everywhere, and all three builders
return the empty table on it. -/
theorem C6_insufficient_columns_witness :
    create_vaccination_fact_table ⟨["location"], []⟩ [] = Except.ok emptyDF ∧
    create_testing_fact_table ⟨["location"], []⟩ [] = Except.ok emptyDF ∧
    create_policy_fact_table ⟨["location"], []⟩ [] = Except.ok emptyDF := by
  have h := C6_insufficient_columns ⟨["location"], []⟩ []
  exact ⟨h.1 (by decide), h.2.1 (by decide), h.2.2 (by decide)⟩

/-- Every row kept by the location deduplication comes from the
input. -/
theorem dedupByLocation_subset :
    ∀ l : List GeoRow, ∀ x ∈ dedupByLocation l, x ∈ l := by
  intro l
  induction l using dedupByLocation.induct with
  | case1 => intro x hx; simp [dedupByLocation] at hx
  | case2 r rs ih =>
    intro x hx
    rw [dedupByLocation] at hx
    rcases List.mem_cons.mp hx with rfl | hmem
    · exact List.mem_cons_self _ _
    · exact List.mem_cons_of_mem _ (List.mem_of_mem_filter (ih x hmem))

/-- The deduplicated rows carry pairwise distinct location names. -/
theorem dedupByLocation_nodup :
    ∀ l : List GeoRow, ((dedupByLocation l).map GeoRow.location).Nodup := by
  intro l
  induction l using dedupByLocation.induct with
  | case1 => simp [dedupByLocation]
  | case2 r rs ih =>
    rw [dedupByLocation, List.map_cons, List.nodup_cons]
    refine ⟨?_, ih⟩
    intro hmem
    rcases List.mem_map.mp hmem with ⟨x, hx, hxl⟩
    have hxf := dedupByLocation_subset _ x hx
    have hneq : x.location ≠ r.location := by
      simpa using List.of_mem_filter hxf
    exact hneq hxl

/-- Filtering by a predicate implied by the search predicate does not
change the result of find?. -/
theorem find?_filter_of_imp (p q : GeoRow → Bool)
    (himp : ∀ a, p a = true → q a = true) :
    ∀ l : List GeoRow, (l.filter q).find? p = l.find? p := by
  intro l
  induction l with
  | nil => rfl
  | cons a t ih =>
    by_cases hq : q a
    · rw [List.filter_cons_of_pos hq]
      by_cases hp : p a
      · rw [List.find?_cons_of_pos _ hp, List.find?_cons_of_pos _ hp]
      · rw [List.find?_cons_of_neg _ (by simpa using hp),
          List.find?_cons_of_neg _ (by simpa using hp)]
        exact ih
    · have hp : ¬ p a = true := fun hpa => hq (himp a hpa)
      rw [List.filter_cons_of_neg (by simpa using hq),
        List.find?_cons_of_neg _ (by simpa using hp)]
      exact ih

/-- First occurrence wins: each deduplicated row is the first input
row bearing its location name. -/
theorem dedupByLocation_first_wins :
    ∀ l : List GeoRow, ∀ x ∈ dedupByLocation l,
      l.find? (fun r => r.location == x.location) = some x := by
  intro l
  induction l using dedupByLocation.induct with
  | case1 => intro x hx; simp [dedupByLocation] at hx
  | case2 r rs ih =>
    intro x hx
    rw [dedupByLocation] at hx
    rcases List.mem_cons.mp hx with rfl | hmem
    · exact List.find?_cons_of_pos _ (by simp)
    · have hxf : x ∈ rs.filter (fun q => q.location != r.location) :=
        dedupByLocation_subset _ x hmem
      have hne : x.location ≠ r.location := by
        have := List.of_mem_filter hxf
        simpa using this
      have hfind := ih x hmem
      rw [find?_filter_of_imp (fun q => q.location == x.location)
        (fun q => q.location != r.location)
        (fun a ha => by
          simp only [beq_iff_eq] at ha
          simpa [ha] using hne) rs] at hfind
      rw [List.find?_cons_of_neg _ (by simpa using fun h => hne h.symm)]
      exact hfind

/-- Every input location name survives deduplication. -/
theorem dedupByLocation_mem_locations :
    ∀ l : List GeoRow, ∀ loc : String,
      loc ∈ l.map GeoRow.location ↔ loc ∈ (dedupByLocation l).map GeoRow.location := by
  intro l
  induction l using dedupByLocation.induct with
  | case1 => intro loc; simp [dedupByLocation]
  | case2 r rs ih =>
    intro loc
    rw [dedupByLocation]
    simp only [List.map_cons, List.mem_cons]
    constructor
    · rintro (rfl | hmem)
      · exact Or.inl rfl
      · by_cases hr : loc = r.location
        · exact Or.inl hr
        · refine Or.inr ((ih loc).mp ?_)
          rcases List.mem_map.mp hmem with ⟨x, hx, rfl⟩
          exact List.mem_map_of_mem _
            (List.mem_filter.mpr ⟨hx, by simpa using hr⟩)
    · rintro (rfl | hmem)
      · exact Or.inl rfl
      · rcases List.mem_map.mp hmem with ⟨x, hx, rfl⟩
        exact Or.inr (List.mem_map_of_mem _
          (List.mem_of_mem_filter (dedupByLocation_subset _ x hx)))

/-- Claim C7: the geography dimension holds exactly one row per
distinct location name of the input, the retained row for each name
is the first input row bearing it, and the LocationKey column is the
dense sequence 1..n with no repeats, assigned in first-appearance
order. -/
theorem C7_geography_dimension :
    ∀ rows : List GeoRow,
      (createGeographyDimension rows).map Prod.fst = dedupByLocation rows ∧
      ((createGeographyDimension rows).map (fun p => p.1.location)).Nodup ∧
      (∀ loc : String, loc ∈ rows.map GeoRow.location ↔
        loc ∈ (createGeographyDimension rows).map (fun p => p.1.location)) ∧
      (∀ p ∈ createGeographyDimension rows,
        rows.find? (fun r => r.location == p.1.location) = some p.1) ∧
      (createGeographyDimension rows).map Prod.snd =
        List.range' 1 (createGeographyDimension rows).length := by
  intro rows
  have hlr : (List.range' 1 (dedupByLocation rows).length).length =
      (dedupByLocation rows).length := List.length_range' _ _ _
  have hfst : (createGeographyDimension rows).map Prod.fst = dedupByLocation rows := by
    unfold createGeographyDimension
    exact List.map_fst_zip _ _ (le_of_eq hlr.symm)
  have hloc : (createGeographyDimension rows).map (fun p => p.1.location) =
      (dedupByLocation rows).map GeoRow.location := by
    rw [← hfst, List.map_map]
    rfl
  have hglen : (createGeographyDimension rows).length = (dedupByLocation rows).length := by
    unfold createGeographyDimension
    rw [List.length_zip, hlr, min_self]
  refine ⟨hfst, ?_, ?_, ?_, ?_⟩
  · rw [hloc]
    exact dedupByLocation_nodup rows
  · intro loc
    rw [hloc]
    exact dedupByLocation_mem_locations rows loc
  · rintro ⟨a, b⟩ hp
    have ha : a ∈ dedupByLocation rows := (List.of_mem_zip hp).1
    exact dedupByLocation_first_wins rows a ha
  · rw [hglen]
    unfold createGeographyDimension
    exact List.map_snd_zip _ _ (le_of_eq hlr)

/-- Witness for claim C7 on a concrete frame with a duplicated
location: the dimension row for Beta is keyed 2 and is the first (and
only) input row named Beta. -/
theorem C7_geography_witness :
    List.find?
      (fun r => r.location == (GeoRow.mk "Beta" (fun _ => FVal.nan)).location)
      [GeoRow.mk "Alpha" (fun _ => FVal.nan), GeoRow.mk "Alpha" (fun _ => FVal.nan),
        GeoRow.mk "Beta" (fun _ => FVal.nan)] = some (GeoRow.mk "Beta" (fun _ => FVal.nan)) := by
  have h := (C7_geography_dimension
    [GeoRow.mk "Alpha" (fun _ => FVal.nan), GeoRow.mk "Alpha" (fun _ => FVal.nan),
      GeoRow.mk "Beta" (fun _ => FVal.nan)]).2.2.2.1
  exact h (GeoRow.mk "Beta" (fun _ => FVal.nan), 2)
    (by simp [createGeographyDimension, dedupByLocation, List.range'])

/-- Claim C2, counterexample.  In the date dimension the pandemic
phase is assigned by pandas cut, whose intervals are right-closed: a
date exactly on the breakpoint 2020-06-01 falls in the interval
ending there and receives the preceding label Initial Outbreak, not
the label First Wave of the phase beginning at that breakpoint. -/
theorem C2_counterexample :
    pandemicPhaseDim ⟨2020, 6, 1⟩ = some "Initial Outbreak" ∧
    pandemicPhaseDim ⟨2020, 6, 1⟩ ≠ some "First Wave" := by
  refine ⟨by decide, by decide⟩

/-- Claim C2, amended.  In the date dimension built by pandas cut a
date exactly on a breakpoint belongs to the phase ending at that
breakpoint; it is the row-level classifier of data_processing.py,
built from strict less-than conditions, that assigns a breakpoint
date to the phase beginning there. -/
theorem C2_breakpoint_phase :
    (pandemicPhaseDim ⟨2020, 6, 1⟩ = some "Initial Outbreak" ∧
      pandemicPhaseDim ⟨2020, 12, 1⟩ = some "First Wave" ∧
      pandemicPhaseDim ⟨2021, 6, 1⟩ = some "Second Wave & Early Vaccination" ∧
      pandemicPhaseDim ⟨2021, 12, 1⟩ = some "Delta Variant" ∧
      pandemicPhaseDim ⟨2022, 6, 1⟩ = some "Omicron Surge") ∧
    (classifyPandemicPhase ⟨2020, 6, 1⟩ = "First Wave" ∧
      classifyPandemicPhase ⟨2020, 12, 1⟩ = "Second Wave" ∧
      classifyPandemicPhase ⟨2021, 6, 1⟩ = "Delta Variant" ∧
      classifyPandemicPhase ⟨2021, 12, 1⟩ = "Omicron Surge" ∧
      classifyPandemicPhase ⟨2022, 6, 1⟩ = "Endemic Phase") := by
  refine ⟨⟨by decide, by decide, by decide, by decide, by decide⟩,
    ⟨by decide, by decide, by decide, by decide, by decide⟩⟩

end CovidSpec
